import Mathlib

/-!
Verification of `frescobaldi_app/open_file_at_cursor.py`.

The Python module resolves textual include-style references found in a
document into absolute filesystem paths.  This file gives a shallow
embedding of the module: pure Python functions become Lean functions,
the filesystem is an explicit value (`FS`) recording which paths exist,
which are directories and which pass `os.access(-, os.R_OK)`, and the
external lexer (`documentinfo` / `lydocinfo`) is passed in as data: the
lists returned by `include_args()` and `scheme_load_args()`.

Strings are manipulated through their character lists so that every
definition evaluates by kernel reduction.
-/

namespace OpenFileAtCursor

/-! ### Python string and `os.path` primitives -/

/-- Characters stripped by Python `str.strip()`. -/
def pyIsSpaceChar (c : Char) : Bool :=
  c = ' ' || c = '\t' || c = '\n' || c = '\r' || c = '\x0b' || c = '\x0c'

/-- Python `str.strip()`: remove leading and trailing whitespace. -/
def pyStrip (s : String) : String :=
  String.mk (((s.data.dropWhile pyIsSpaceChar).reverse.dropWhile pyIsSpaceChar).reverse)

/-- Does the character list `pat` occur at the head of `s`? -/
def listStartsWith : List Char → List Char → Bool
  | [], _ => true
  | _ :: _, [] => false
  | p :: ps, c :: cs => if p = c then listStartsWith ps cs else false

/-- String version of `listStartsWith` (Python `str.startswith`). -/
def strStartsWith (s pat : String) : Bool :=
  listStartsWith pat.data s.data

/-- Split a character list on `'/'` (Python `path.split('/')`), accumulator
holds the current component reversed. -/
def splitSlashAux : List Char → List Char → List String
  | cur, [] => [String.mk cur.reverse]
  | cur, c :: rest =>
    if c = '/' then String.mk cur.reverse :: splitSlashAux [] rest
    else splitSlashAux (c :: cur) rest

def splitSlash (cs : List Char) : List String :=
  splitSlashAux [] cs

/-- Python `sep.join(comps)`. -/
def joinWithSep (sep : String) : List String → String
  | [] => ""
  | [s] => s
  | s :: rest => s ++ sep ++ joinWithSep sep rest

/-- `posixpath.join` restricted to two arguments, as used in the source:
an absolute second component replaces the first, otherwise the two are
glued with a single `/` unless the first is empty or already ends in `/`. -/
def pyJoin (a b : String) : String :=
  if strStartsWith b "/" then b
  else if a = "" || a.data.getLast? = some '/' then a ++ b
  else a ++ "/" ++ b

/-- Component loop of `posixpath.normpath`.  The accumulator is the
`new_comps` list in reverse order (its head is Python's `new_comps[-1]`). -/
def normpathComps (initialSlashes : Nat) : List String → List String → List String
  | acc, [] => acc.reverse
  | acc, comp :: rest =>
    if comp = "" || comp = "." then normpathComps initialSlashes acc rest
    else if comp ≠ ".." || (initialSlashes = 0 && acc.isEmpty)
        || acc.head? = some ".." then
      normpathComps initialSlashes (comp :: acc) rest
    else if acc.isEmpty then normpathComps initialSlashes acc rest
    else normpathComps initialSlashes acc.tail rest

/-- `posixpath.normpath`: collapse `//`, `.` and `..` segments. -/
def normpath (path : String) : String :=
  if path = "" then "."
  else
    let initialSlashes : Nat :=
      if strStartsWith path "/" then
        if strStartsWith path "//" && !(strStartsWith path "///") then 2 else 1
      else 0
    let comps := splitSlash path.data
    let joined := joinWithSep "/" (normpathComps initialSlashes [] comps)
    let full := String.mk (List.replicate initialSlashes '/') ++ joined
    if full = "" then "." else full

/-- Index one past the last `'/'` in the list (0 when there is none);
arguments: remaining characters, current index, best answer so far. -/
def lastSlashPlusOne : List Char → Nat → Nat → Nat
  | [], _, best => best
  | c :: rest, idx, best =>
    lastSlashPlusOne rest (idx + 1) (if c = '/' then idx + 1 else best)

/-- `posixpath.dirname`: everything up to the last `/`, with trailing
slashes stripped unless the head consists of slashes only. -/
def dirname (p : String) : String :=
  let cs := p.data
  let i := lastSlashPlusOne cs 0 0
  let head := cs.take i
  if head.isEmpty || head.all (fun c => c = '/') then String.mk head
  else String.mk ((head.reverse.dropWhile (fun c => c = '/')).reverse)

/-- First index at or after the running index where `pat` occurs. -/
def findFromAux (pat : List Char) : List Char → Nat → Option Nat
  | [], idx => if pat.isEmpty then some idx else none
  | c :: rest, idx =>
    if listStartsWith pat (c :: rest) then some idx
    else findFromAux pat rest (idx + 1)

/-- First occurrence of `pat` in `s` at offset `start` or later. -/
def findSub (pat s : List Char) (start : Nat) : Option Nat :=
  findFromAux pat (s.drop start) start

/-! ### Filesystem model

Read-only snapshot of the filesystem probes performed by the module:
`os.path.exists`, `os.path.isdir` and `os.access(-, os.R_OK)` become
membership tests in three path lists. -/

structure FS where
  present : List String
  dirs : List String
  readable : List String
deriving DecidableEq, Repr

/-- `os.path.exists(p)`. -/
def os_path_exists (fs : FS) (p : String) : Bool := fs.present.contains p

/-- `os.path.isdir(p)`. -/
def os_path_isdir (fs : FS) (p : String) : Bool := fs.dirs.contains p

/-- `os.access(p, os.R_OK)`. -/
def os_access (fs : FS) (p : String) : Bool := fs.readable.contains p

/-- The acceptance test of `includeTarget` and `genToolTipInfo`:
`os.path.exists(name) and not os.path.isdir(name)`. -/
def scanOk (fs : FS) (name : String) : Bool :=
  os_path_exists fs name && !os_path_isdir fs name

/-! ### Shared helpers of the module -/

/-- Python `a or b` on lists: `a` when non-empty, else `b`.  This is the
idiom `i.include_args() or i.scheme_load_args()` used throughout. -/
def pyOr (a b : List String) : List String :=
  if a.isEmpty then b else a

/-- The search path built identically in `includeTarget`, `genToolTipInfo`
and `filenames_at_cursor`:
`path = [os.path.dirname(filename)] if filename else []` followed by
`path.extend(dinfo.includepath())`. -/
def buildPath (filename : String) (includepath : List String) : List String :=
  (if filename = "" then [] else [dirname filename]) ++ includepath

/-! ### `filenames_at_cursor` (source lines 135-175)

The lexer results for the scan range (`include_args`, `scheme_load_args`),
the selection state and the document's filename and include path are
passed as data. -/

/-- Lines 141-152: choose the raw names, falling back to the raw selected
text when the lexer yields nothing, there is a selection, and the stripped
selection contains no newline. -/
def cursorFnames (includeArgs schemeLoadArgs : List String) (hasSel : Bool)
    (selText : String) : List String :=
  let fnames := pyOr includeArgs schemeLoadArgs
  if fnames.isEmpty && hasSel then
    if !((pyStrip selText).data.contains '\n') then [selText] else fnames
  else fnames

/-- Lines 166-170: the inner `for p in path` loop with `break`; the first
directory whose normalized join passes `os.access(-, os.R_OK)` wins. -/
def firstReadable (fs : FS) (f : String) : List String → Option String
  | [] => none
  | p :: ps =>
    let name := normpath (pyJoin p f)
    if os_access fs name then some name else firstReadable fs f ps

/-- Lines 164-175: the outer `for f in fnames` loop with the `for`/`else`
fallback `if not existing: filenames.append(normpath(join(directory, f)))`. -/
def resolveNames (fs : FS) (path : List String) (directory : String)
    (existing : Bool) : List String → List String
  | [] => []
  | f :: rest =>
    match firstReadable fs f path with
    | some name => name :: resolveNames fs path directory existing rest
    | none =>
      if !existing then
        normpath (pyJoin directory f) :: resolveNames fs path directory existing rest
      else resolveNames fs path directory existing rest

/-- `filenames_at_cursor(cursor, existing)`, lines 135-175. -/
def filenames_at_cursor (includeArgs schemeLoadArgs : List String) (hasSel : Bool)
    (selText filename : String) (includepath : List String)
    (existing : Bool) (fs : FS) : List String :=
  let fnames := cursorFnames includeArgs schemeLoadArgs hasSel selText
  let directory := dirname filename
  let path := buildPath filename includepath
  resolveNames fs path directory existing fnames

/-! ### Document model for `genToolTipInfo`

A document is its list of blocks (lines).  Block `i` occupies character
positions `[blockPosition doc i, blockPosition doc i + blockLen)` where
`blockLen` counts the text plus the block separator, matching
`QTextBlock.length()` and the source's `end = start + len(text) + 1`.
`QTextDocument.find(str, pos)` becomes `findInclude`: the offset of the
first occurrence of the literal `\include` in the document text at or
after `pos` (the source only uses the cursor it returns to fetch the
containing block, which the start offset determines). -/

abbrev Doc := List String

/-- `QTextBlock.length()`: text length plus one for the separator. -/
def blockLen (text : String) : Nat := text.data.length + 1

/-- Text of block `i` (out-of-range reads give `""`; the source only
uses valid positions). -/
def blockText (doc : Doc) (i : Nat) : String := doc.getD i ""

/-- `QTextBlock.position()` of block `i`. -/
def blockPosition (doc : Doc) (i : Nat) : Nat :=
  ((doc.take i).map blockLen).sum

/-- Index of the block containing a character position. -/
def blockAtAux : Doc → Nat → Nat → Nat
  | [], _, i => i
  | b :: rest, pos, i =>
    if pos < blockLen b then i else blockAtAux rest (pos - blockLen b) (i + 1)

def blockAt (doc : Doc) (pos : Nat) : Nat := blockAtAux doc pos 0

/-- The document's character stream: blocks joined by the separator. -/
def docText : Doc → List Char
  | [] => []
  | [b] => b.data
  | b :: rest => b.data ++ '\n' :: docText rest

/-- `cursor.document().find('\include', startIndex)`. -/
def findInclude (doc : Doc) (start : Nat) : Option Nat :=
  findSub "\\include".data (docText doc) start

/-! ### `genToolTipInfo` (source lines 73-133) -/

structure ToolTipInfo where
  num : Nat
  content : String
deriving DecidableEq, Repr

/-- Line 128's marker string. -/
def invalidMarker : String := "This is an invalid include file"

/-- Lines 121-126: the inner `for p in path` loop of `genToolTipInfo`,
which `break`s at the first directory whose normalized join exists and is
not a directory. -/
def resolveScanName (fs : FS) (f : String) : List String → Option String
  | [] => none
  | p :: ps =>
    let name := normpath (pyJoin p f)
    if scanOk fs name then some name else resolveScanName fs f ps

/-- Lines 119-126: the outer `for f in fnames` loop, carried state is the
current value of `info['content']` (`none` while `valid` is false). -/
def scanContentLoop (fs : FS) (path : List String) :
    List String → Option String → Option String
  | [], content => content
  | f :: rest, content =>
    match resolveScanName fs f path with
    | some name => scanContentLoop fs path rest (some name)
    | none => scanContentLoop fs path rest content

/-- Lines 119-128: the `content` field of one occurrence's entry. -/
def scanContent (fs : FS) (path fnames : List String) : String :=
  match scanContentLoop fs path fnames none with
  | some name => name
  | none => invalidMarker

/-- Lines 101-132: the `while not pointCursor.isNull()` loop, made total
with a fuel argument; `none` means the fuel ran out before the loop
finished.  State: fuel, `startIndex`, `pointCursor` (offset of the found
occurrence or `none` for a null cursor) and the accumulated entries in
reverse.  Note that the `if not fnames: continue` branch (lines 111-112)
re-enters the loop with `pointCursor` unchanged, exactly as the source
does. -/
def genToolTipInfoLoop (doc : Doc) (lexer : Nat → List String × List String)
    (path : List String) (fs : FS) :
    Nat → Nat → Option Nat → List ToolTipInfo → Option (List ToolTipInfo)
  | 0, _, _, _ => none
  | _ + 1, _, none, acc => some acc.reverse
  | fuel + 1, _, some pos, acc =>
    let b := blockAt doc pos
    let tail := blockPosition doc b + blockLen (blockText doc b)
    let fnames := pyOr (lexer b).1 (lexer b).2
    if fnames.isEmpty then
      genToolTipInfoLoop doc lexer path fs fuel tail (some pos) acc
    else
      genToolTipInfoLoop doc lexer path fs fuel tail (findInclude doc tail)
        ({ num := b, content := scanContent fs path fnames } :: acc)

/-- `genToolTipInfo(cursor)`, lines 73-133.  `lexer b` is the pair
`(include_args, scheme_load_args)` the external `lydocinfo().range`
yields for block `b`'s range. -/
def genToolTipInfo (doc : Doc) (lexer : Nat → List String × List String)
    (filename : String) (includepath : List String) (fs : FS)
    (fuel : Nat) : Option (List ToolTipInfo) :=
  genToolTipInfoLoop doc lexer (buildPath filename includepath) fs
    fuel 0 (findInclude doc 0) []

/-! ### `includeTarget` (source lines 34-71) -/

/-- `includeTarget` returns the Python string `""` when no names are
extracted and otherwise the accumulated list. -/
inductive IncludeTargetResult where
  | emptyString
  | found (targets : List String)
deriving DecidableEq, Repr

/-- Lines 66-70: the inner `for p in path` loop.  The `continue` inside
the match keeps iterating, so every directory whose candidate exists and
is not a directory contributes an entry, in path order. -/
def includeTargetInner (fs : FS) (f : String) : List String → List String
  | [] => []
  | p :: ps =>
    let name := normpath (pyJoin p f)
    if scanOk fs name then name :: includeTargetInner fs f ps
    else includeTargetInner fs f ps

/-- Lines 63-71: the outer loop accumulating `targets`. -/
def includeTargetsAll (fs : FS) (path : List String) : List String → List String
  | [] => []
  | f :: rest => includeTargetInner fs f path ++ includeTargetsAll fs path rest

/-- `includeTarget(cursor)`, lines 34-71. -/
def includeTarget (includeArgs schemeLoadArgs : List String)
    (filename : String) (includepath : List String) (fs : FS) :
    IncludeTargetResult :=
  let fnames := pyOr includeArgs schemeLoadArgs
  if fnames.isEmpty then .emptyString
  else .found (includeTargetsAll fs (buildPath filename includepath) fnames)

/-! ### `open_targets` and `open_file_at_cursor` (source lines 177-198)

The main window is a record of the opened urls and the focused document.
Python's positional-argument binding is modelled explicitly, because the
call at line 185 supplies a single argument to the two-parameter function
`open_targets(mainwindow, targets)`. -/

inductive PyError where
  | typeError
deriving DecidableEq, Repr

structure Window where
  openedUrls : List String
  focusedDoc : Option String
deriving DecidableEq, Repr

/-- `mainwindow.openUrl(QUrl.fromLocalFile(t))`: record the url, return
the document handle. -/
def openUrl (w : Window) (t : String) : Window × String :=
  ({ w with openedUrls := w.openedUrls ++ [t] }, t)

/-- Lines 193-195: `d = None; for t in targets: d = mainwindow.openUrl(...)`. -/
def openTargetsLoop (w : Window) (d : Option String) :
    List String → Window × Option String
  | [] => (w, d)
  | t :: rest =>
    let wd := openUrl w t
    openTargetsLoop wd.1 (some wd.2) rest

/-- `open_targets(mainwindow, targets)`, lines 187-198.  Python returns
`True` or falls through returning `None`; the Bool records truthiness. -/
def open_targets (w : Window) (targets : List String) : Window × Bool :=
  let wd := openTargetsLoop w none targets
  match wd.2 with
  | some doc => ({ wd.1 with focusedDoc := some doc }, true)
  | none => (wd.1, false)

/-- Values a call in this module passes around positionally. -/
inductive PyVal where
  | window (w : Window)
  | strList (l : List String)
deriving Repr

/-- Python positional binding: a call must supply exactly one argument per
required parameter, otherwise it raises `TypeError` before the callee's
body runs (both parameters of `open_targets` are required). -/
def pyBindPositional (params : List String) (args : List PyVal) :
    Except PyError (List (String × PyVal)) :=
  if args.length = params.length then .ok (params.zip args)
  else .error .typeError

def open_targets_params : List String := ["mainwindow", "targets"]

/-- Run `open_targets` from a bound environment; anything but a window
bound to `mainwindow` and a list bound to `targets` is a type error. -/
def runBoundOpenTargets (env : List (String × PyVal)) :
    Except PyError (Window × Bool) :=
  match List.lookup "mainwindow" env, List.lookup "targets" env with
  | some (.window w), some (.strList ts) => .ok (open_targets w ts)
  | _, _ => .error .typeError

/-- `open_file_at_cursor(mainwindow, cursor)`, lines 177-185.  Line 185
reads `return open_targets(filenames_at_cursor(cursor))`: a single
positional argument for the two parameters of `open_targets`. -/
def open_file_at_cursor (mainwindow : Window)
    (includeArgs schemeLoadArgs : List String) (hasSel : Bool)
    (selText filename : String) (includepath : List String) (fs : FS) :
    Except PyError (Window × Bool) :=
  let targets :=
    filenames_at_cursor includeArgs schemeLoadArgs hasSel selText filename
      includepath true fs
  match pyBindPositional open_targets_params [PyVal.strList targets] with
  | .ok env => runBoundOpenTargets env
  | .error e => .error e

/-! ### Helper lemmas -/

theorem getLast?_or_cons {α : Type} (a : α) :
    ∀ l : List α, (a :: l).getLast? = (l.getLast?).or (some a) := by
  intro l
  induction l generalizing a with
  | nil => rfl
  | cons b t ih =>
    have h1 : (a :: b :: t).getLast? = (b :: t).getLast? := rfl
    rw [h1, ih b]
    cases ht : t.getLast? with
    | none => rfl
    | some x => rfl

theorem firstReadable_append_of_none (fs : FS) (ps1 rest : List String) (f : String)
    (h : ∀ p ∈ ps1, os_access fs (normpath (pyJoin p f)) = false) :
    firstReadable fs f (ps1 ++ rest) = firstReadable fs f rest := by
  induction ps1 with
  | nil => rfl
  | cons p ps ih =>
    simp only [List.cons_append, firstReadable]
    rw [h p (List.mem_cons_self p ps)]
    simp only [Bool.false_eq_true, if_false]
    exact ih (fun q hq => h q (List.mem_cons_of_mem p hq))

theorem firstReadable_access (fs : FS) (f : String) :
    ∀ (path : List String) (n : String),
      firstReadable fs f path = some n → os_access fs n = true := by
  intro path
  induction path with
  | nil => intro n h; exact absurd h (by simp [firstReadable])
  | cons p ps ih =>
    intro n h
    simp only [firstReadable] at h
    by_cases hx : os_access fs (normpath (pyJoin p f)) = true
    · rw [if_pos hx] at h
      injection h with h2
      rw [← h2]
      exact hx
    · rw [if_neg hx] at h
      exact ih n h

theorem resolveNames_eq_filterMap (fs : FS) (path : List String) (directory : String)
    (existing : Bool) :
    ∀ fnames : List String,
      resolveNames fs path directory existing fnames
        = fnames.filterMap (fun g =>
            match firstReadable fs g path with
            | some n => some n
            | none => if existing then none
                      else some (normpath (pyJoin directory g))) := by
  intro fnames
  induction fnames with
  | nil => rfl
  | cons f rest ih =>
    simp only [resolveNames, List.filterMap_cons]
    cases hf : firstReadable fs f path with
    | some n => simp [hf, ih]
    | none =>
      cases existing with
      | true => simp [hf, ih]
      | false => simp [hf, ih]

theorem resolveNames_empty_path (fs : FS) (directory : String) :
    ∀ fnames, resolveNames fs [] directory true fnames = [] := by
  intro fnames
  induction fnames with
  | nil => rfl
  | cons f rest ih =>
    simp only [resolveNames, firstReadable, Bool.not_true, Bool.false_eq_true, if_false]
    exact ih

theorem mem_resolveNames_access (fs : FS) (path : List String) (directory : String) :
    ∀ (fnames : List String) (name : String),
      name ∈ resolveNames fs path directory true fnames →
        os_access fs name = true := by
  intro fnames
  induction fnames with
  | nil => intro name h; simp [resolveNames] at h
  | cons f rest ih =>
    intro name h
    simp only [resolveNames] at h
    cases hf : firstReadable fs f path with
    | some n =>
      rw [hf] at h
      rcases List.mem_cons.mp h with h1 | h2
      · rw [h1]; exact firstReadable_access fs f path n hf
      · exact ih name h2
    | none =>
      rw [hf] at h
      simp only [Bool.not_true, Bool.false_eq_true, if_false] at h
      exact ih name h

theorem resolveScanName_append_of_none (fs : FS) (ps1 rest : List String) (f : String)
    (h : ∀ p ∈ ps1, scanOk fs (normpath (pyJoin p f)) = false) :
    resolveScanName fs f (ps1 ++ rest) = resolveScanName fs f rest := by
  induction ps1 with
  | nil => rfl
  | cons p ps ih =>
    simp only [List.cons_append, resolveScanName]
    rw [h p (List.mem_cons_self p ps)]
    simp only [Bool.false_eq_true, if_false]
    exact ih (fun q hq => h q (List.mem_cons_of_mem p hq))

theorem scanContentLoop_eq (fs : FS) (path : List String) :
    ∀ (fnames : List String) (c : Option String),
      scanContentLoop fs path fnames c
        = ((fnames.filterMap (fun f => resolveScanName fs f path)).getLast?).or c := by
  intro fnames
  induction fnames with
  | nil => intro c; rfl
  | cons f rest ih =>
    intro c
    cases hf : resolveScanName fs f path with
    | none => simp only [scanContentLoop, List.filterMap_cons, hf, ih c]
    | some n =>
      simp only [scanContentLoop, List.filterMap_cons, hf, ih (some n)]
      rw [getLast?_or_cons]
      cases hl : (rest.filterMap (fun g => resolveScanName fs g path)).getLast? with
      | none => rfl
      | some x => rfl

theorem genLoop_stuck (doc : Doc) (lexer : Nat → List String × List String)
    (path : List String) (fs : FS) (pos : Nat)
    (h : pyOr (lexer (blockAt doc pos)).1 (lexer (blockAt doc pos)).2 = []) :
    ∀ fuel si acc,
      genToolTipInfoLoop doc lexer path fs fuel si (some pos) acc = none := by
  intro fuel
  induction fuel with
  | zero => intro si acc; rfl
  | succ n ih =>
    intro si acc
    simp only [genToolTipInfoLoop, h, List.isEmpty_nil, if_true]
    exact ih _ _

/-! ### Claim theorems -/

/-- C1: the claim says the full-document scan terminates for every finite
document and that an occurrence with zero raw references is skipped, the
search continuing past its block.  The code does the opposite: the
`if not fnames: continue` branch re-enters the `while` loop without
re-running `document().find`, so `pointCursor` stays non-null forever.
On a one-block document containing a malformed `\include` for which the
lexer extracts nothing, the loop never terminates: no amount of fuel
makes it return. -/
theorem c1_scan_diverges_on_argless_occurrence :
    ∀ fuel : Nat,
      genToolTipInfo ["\\include x"] (fun _ => ([], []))
        "/a/main.ly" [] { present := [], dirs := [], readable := [] } fuel
        = none := by
  intro fuel
  have h0 : findInclude ["\\include x"] 0 = some 0 := by decide
  unfold genToolTipInfo
  rw [h0]
  exact genLoop_stuck ["\\include x"] (fun _ => ([], []))
    (buildPath "/a/main.ly" []) { present := [], dirs := [], readable := [] }
    0 rfl fuel 0 []

/-- Filesystem for the C2 counterexample: `f.ly` exists (as a plain file)
under both `/a` and `/b`. -/
def fsC2 : FS := { present := ["/a/f.ly", "/b/f.ly"], dirs := [], readable := [] }

/-- C2 counterexample: document at `/a/main.ly`, include path `["/b"]`,
one `\include "f.ly"` block, and `f.ly` existing under both `/a` and `/b`.
The claim says the entry's content is the candidate from the latest such
directory, `/b/f.ly`; the code's inner loop `break`s at the first match,
so the scan returns `/a/f.ly`. -/
theorem c2_counterexample_scan_takes_first_root :
    genToolTipInfo ["\\include \"f.ly\""] (fun _ => (["f.ly"], []))
        "/a/main.ly" ["/b"] fsC2 3
      = some [{ num := 0, content := "/a/f.ly" }]
    ∧ buildPath "/a/main.ly" ["/b"] = ["/a", "/b"]
    ∧ normpath (pyJoin "/a" "f.ly") = "/a/f.ly"
    ∧ normpath (pyJoin "/b" "f.ly") = "/b/f.ly"
    ∧ scanOk fsC2 "/a/f.ly" = true
    ∧ scanOk fsC2 "/b/f.ly" = true
    ∧ ("/a/f.ly" : String) ≠ "/b/f.ly" := by decide

/-- C2 (amended): per raw name the document-scan resolution accepts the
EARLIEST search-path directory whose candidate exists and is not a
directory — the same first-match policy as cursor mode, not a last-match
one — even when a later directory also holds the file; the entry content
for a single-name occurrence is that first match.  (The only
last-wins effect in the scan is across several names of one occurrence,
where each resolved name overwrites `info['content']`.) -/
theorem c2_amended_scan_first_root_wins (fs : FS) (ps1 ps2 : List String)
    (d d2 f : String)
    (hd : scanOk fs (normpath (pyJoin d f)) = true)
    (hd2 : d2 ∈ ps2)
    (hd2ok : scanOk fs (normpath (pyJoin d2 f)) = true)
    (h1 : ∀ p ∈ ps1, scanOk fs (normpath (pyJoin p f)) = false) :
    resolveScanName fs f (ps1 ++ d :: ps2) = some (normpath (pyJoin d f))
    ∧ scanContent fs (ps1 ++ d :: ps2) [f] = normpath (pyJoin d f) := by
  have hr : resolveScanName fs f (ps1 ++ d :: ps2)
      = some (normpath (pyJoin d f)) := by
    rw [resolveScanName_append_of_none fs ps1 (d :: ps2) f h1]
    simp [resolveScanName, hd]
  refine ⟨hr, ?_⟩
  simp [scanContent, scanContentLoop, hr]

/-- C2 witness: with `f.ly` present under both `/a` and `/b` and the
search path `["/a", "/b"]`, the scan resolves the name to `/a/f.ly`. -/
theorem c2_amended_witness :
    resolveScanName fsC2 "f.ly" ([] ++ "/a" :: ["/b"]) = some (normpath (pyJoin "/a" "f.ly"))
    ∧ scanContent fsC2 ([] ++ "/a" :: ["/b"]) ["f.ly"] = normpath (pyJoin "/a" "f.ly") :=
  c2_amended_scan_first_root_wins fsC2 [] ["/b"] "/a" "/b" "f.ly"
    (by decide) (by decide) (by decide) (by decide)

/-- C3: cursor-mode resolution is first-match-wins — with every directory
before `d1` failing the `os.access` probe and both `d1` and a later `d2`
passing it, the name resolves to the candidate joined against `d1`, the
earlier directory, whatever comes after; and the output of the name loop
is the order-preserving per-name map over the raw names. -/
theorem c3_cursor_first_match_wins (fs : FS) (ps1 ps2 ps3 : List String)
    (d1 d2 f directory : String) (existing : Bool)
    (h1 : ∀ p ∈ ps1, os_access fs (normpath (pyJoin p f)) = false)
    (hd1 : os_access fs (normpath (pyJoin d1 f)) = true)
    (hd2 : os_access fs (normpath (pyJoin d2 f)) = true) :
    firstReadable fs f (ps1 ++ d1 :: (ps2 ++ d2 :: ps3))
      = some (normpath (pyJoin d1 f))
    ∧ ∀ fnames : List String,
        resolveNames fs (ps1 ++ d1 :: (ps2 ++ d2 :: ps3)) directory existing fnames
          = fnames.filterMap (fun g =>
              match firstReadable fs g (ps1 ++ d1 :: (ps2 ++ d2 :: ps3)) with
              | some n => some n
              | none => if existing then none
                        else some (normpath (pyJoin directory g))) := by
  constructor
  · rw [firstReadable_append_of_none fs ps1 (d1 :: (ps2 ++ d2 :: ps3)) f h1]
    simp [firstReadable, hd1]
  · exact resolveNames_eq_filterMap fs _ directory existing

/-- Filesystem for the C3 witness: `f.ly` readable under `/a` and `/b`
but not under `/z`. -/
def fsC3 : FS := { present := [], dirs := [], readable := ["/a/f.ly", "/b/f.ly"] }

/-- C3 witness: searching `["/z", "/a", "/b"]` for `f.ly`, readable under
both `/a` and `/b`, accepts `/a/f.ly`. -/
theorem c3_witness :
    firstReadable fsC3 "f.ly" (["/z"] ++ "/a" :: ([] ++ "/b" :: []))
      = some (normpath (pyJoin "/a" "f.ly")) :=
  (c3_cursor_first_match_wins fsC3 ["/z"] [] [] "/a" "/b" "f.ly" "" true
    (by decide) (by decide) (by decide)).1

/-- C4 counterexample: an unsaved document (empty filename) with include
root `/lib` and a raw name `foo.ly` matching no directory.  With
`existing=False` the code emits `normpath(join(dirname(""), "foo.ly"))`
= `"foo.ly"`, not the join against `/lib`, the first (and only) directory
of the search path, which would be `"/lib/foo.ly"`. -/
theorem c4_counterexample_unsaved_document :
    filenames_at_cursor ["foo.ly"] [] false "" "" ["/lib"] false
        { present := [], dirs := [], readable := [] }
      = ["foo.ly"]
    ∧ buildPath "" ["/lib"] = ["/lib"]
    ∧ ("foo.ly" : String) ≠ normpath (pyJoin "/lib" "foo.ly") := by decide

/-- C4 (amended): for a raw name matching no directory of the search
path, `existing=False` emits the normalized join of the name against the
DOCUMENT's directory `os.path.dirname(filename)` — which coincides with
the first directory of the search path exactly when the document has a
filename, and is the empty string otherwise — and `existing=True` emits
nothing for that name. -/
theorem c4_amended_fallback_uses_document_dir (fs : FS) (filename : String)
    (ip : List String) (f : String) (rest : List String)
    (hnone : firstReadable fs f (buildPath filename ip) = none) :
    resolveNames fs (buildPath filename ip) (dirname filename) false (f :: rest)
      = normpath (pyJoin (dirname filename) f)
        :: resolveNames fs (buildPath filename ip) (dirname filename) false rest
    ∧ resolveNames fs (buildPath filename ip) (dirname filename) true (f :: rest)
      = resolveNames fs (buildPath filename ip) (dirname filename) true rest
    ∧ (filename ≠ "" → (buildPath filename ip).head? = some (dirname filename)) := by
  refine ⟨?_, ?_, ?_⟩
  · simp [resolveNames, hnone]
  · simp [resolveNames, hnone]
  · intro hfn
    simp [buildPath, hfn]

/-- C4 witness: document at `/proj/main.ly`, nothing on disk; the missing
name `foo.ly` is joined against `/proj` when `existing=False` and dropped
when `existing=True`. -/
theorem c4_amended_witness :
    resolveNames { present := [], dirs := [], readable := [] }
        (buildPath "/proj/main.ly" []) (dirname "/proj/main.ly") false ["foo.ly"]
      = normpath (pyJoin (dirname "/proj/main.ly") "foo.ly")
        :: resolveNames { present := [], dirs := [], readable := [] }
             (buildPath "/proj/main.ly" []) (dirname "/proj/main.ly") false []
    ∧ resolveNames { present := [], dirs := [], readable := [] }
        (buildPath "/proj/main.ly" []) (dirname "/proj/main.ly") true ["foo.ly"]
      = resolveNames { present := [], dirs := [], readable := [] }
          (buildPath "/proj/main.ly" []) (dirname "/proj/main.ly") true []
    ∧ ((("/proj/main.ly" : String) ≠ "") →
        (buildPath "/proj/main.ly" []).head? = some (dirname "/proj/main.ly")) :=
  c4_amended_fallback_uses_document_dir
    { present := [], dirs := [], readable := [] } "/proj/main.ly" [] "foo.ly" []
    (by decide)

/-- Filesystem for the C5 counterexample: `/a/sub` exists, is a
directory, and is readable. -/
def fsC5 : FS := { present := ["/a/sub"], dirs := ["/a/sub"], readable := ["/a/sub"] }

/-- C5 counterexample: `filenames_at_cursor` only probes
`os.access(name, os.R_OK)`, which a readable DIRECTORY passes, so with
`existing=True` it returns `/a/sub` even though `os.path.isdir` holds of
it — refuting "every returned path ... is not a directory". -/
theorem c5_counterexample_readable_directory :
    filenames_at_cursor ["sub"] [] false "" "/a/main.ly" [] true fsC5
      = ["/a/sub"]
    ∧ os_path_isdir fsC5 "/a/sub" = true := by decide

/-- C5 (amended): on a filesystem where readability implies existence,
every path returned with `existing=True` passed the `os.access(-, R_OK)`
probe at call time and therefore exists — but nothing prevents it from
being a directory. -/
theorem c5_amended_returned_paths_exist (fs : FS) (ia sa : List String)
    (hasSel : Bool) (selText filename : String) (ip : List String)
    (hwf : ∀ p, os_access fs p = true → os_path_exists fs p = true) :
    ∀ name ∈ filenames_at_cursor ia sa hasSel selText filename ip true fs,
      os_access fs name = true ∧ os_path_exists fs name = true := by
  intro name hname
  have ha : os_access fs name = true := by
    unfold filenames_at_cursor at hname
    exact mem_resolveNames_access fs _ _ _ name hname
  exact ⟨ha, hwf name ha⟩

/-- Filesystem for the C5 witness: one readable, existing plain file. -/
def fsC5w : FS := { present := ["/a/f.ly"], dirs := [], readable := ["/a/f.ly"] }

/-- C5 witness: the path returned for `f.ly` under `/a` is readable and
exists. -/
theorem c5_amended_witness :
    os_access fsC5w "/a/f.ly" = true ∧ os_path_exists fsC5w "/a/f.ly" = true :=
  c5_amended_returned_paths_exist fsC5w ["f.ly"] [] false "" "/a/main.ly" []
    (fun _ hp => hp) "/a/f.ly" (by decide)

/-- C6: when the lexer yields no directive arguments for the scan range
(`include_args` and `scheme_load_args` both empty), the raw selected text
becomes the single raw reference exactly when there is a selection whose
stripped text contains no newline; in every other no-argument case the
extractor yields the empty list. -/
theorem c6_selection_fallback (ia sa : List String) (hasSel : Bool)
    (selText : String) (hia : ia = []) (hsa : sa = []) :
    (hasSel = true → (pyStrip selText).data.contains '\n' = false →
      cursorFnames ia sa hasSel selText = [selText])
    ∧ (hasSel = false → cursorFnames ia sa hasSel selText = [])
    ∧ ((pyStrip selText).data.contains '\n' = true →
      cursorFnames ia sa hasSel selText = []) := by
  subst hia hsa
  refine ⟨?_, ?_, ?_⟩
  · intro hs hn
    simp at hn
    simp [cursorFnames, pyOr, hs, hn]
  · intro hs
    simp [cursorFnames, pyOr, hs]
  · intro hn
    simp at hn
    cases hasSel with
    | false => simp [cursorFnames, pyOr]
    | true => simp [cursorFnames, pyOr, hn]

/-- C6 witness: a single-line selection `foo.ly` with no recognized
directive becomes the sole raw reference, and a two-line selection
yields nothing. -/
theorem c6_witness :
    cursorFnames [] [] true "foo.ly" = ["foo.ly"]
    ∧ cursorFnames [] [] true "a\nb" = [] :=
  ⟨(c6_selection_fallback [] [] true "foo.ly" rfl rfl).1 rfl (by decide),
   (c6_selection_fallback [] [] true "a\nb" rfl rfl).2.2 (by decide)⟩

/-- C7: one loop step of the scan at an occurrence whose block yields a
non-empty raw-name list appends exactly one entry, whose block number is
the containing block and whose content is `scanContent`; and that content
is the invalid marker when no name resolves, else the LAST name's
(first-root) resolution — only the final successful resolution
survives. -/
theorem c7_scan_occurrence_one_entry (doc : Doc)
    (lexer : Nat → List String × List String) (path : List String) (fs : FS)
    (fuel si pos : Nat) (acc : List ToolTipInfo)
    (hfn : pyOr (lexer (blockAt doc pos)).1 (lexer (blockAt doc pos)).2 ≠ []) :
    (genToolTipInfoLoop doc lexer path fs (fuel + 1) si (some pos) acc
      = genToolTipInfoLoop doc lexer path fs fuel
          (blockPosition doc (blockAt doc pos)
            + blockLen (blockText doc (blockAt doc pos)))
          (findInclude doc (blockPosition doc (blockAt doc pos)
            + blockLen (blockText doc (blockAt doc pos))))
          ({ num := blockAt doc pos,
             content := scanContent fs path
               (pyOr (lexer (blockAt doc pos)).1 (lexer (blockAt doc pos)).2) }
            :: acc))
    ∧ (∀ fnames : List String,
        (fnames.filterMap (fun f => resolveScanName fs f path) = [] →
          scanContent fs path fnames = invalidMarker)
        ∧ (∀ l, (fnames.filterMap (fun f => resolveScanName fs f path)).getLast?
              = some l →
            scanContent fs path fnames = l)) := by
  have hne : (pyOr (lexer (blockAt doc pos)).1 (lexer (blockAt doc pos)).2).isEmpty
      = false := by
    cases hp : pyOr (lexer (blockAt doc pos)).1 (lexer (blockAt doc pos)).2 with
    | nil => exact absurd hp hfn
    | cons x xs => rfl
  constructor
  · simp only [genToolTipInfoLoop, hne, Bool.false_eq_true, if_false]
  · intro fnames
    constructor
    · intro hnil
      unfold scanContent
      rw [scanContentLoop_eq fs path fnames none, hnil]
      rfl
    · intro l hl
      unfold scanContent
      rw [scanContentLoop_eq fs path fnames none, hl]
      rfl

/-- Filesystem for the C7 witness. -/
def fsC7 : FS := { present := ["/a/f.ly"], dirs := [], readable := [] }

/-- C7 witness: one step on a one-block `\include "f.ly"` document with
the file present under `/a` appends the single entry `/a/f.ly`. -/
theorem c7_witness :
    genToolTipInfoLoop ["\\include \"f.ly\""] (fun _ => (["f.ly"], []))
        ["/a"] fsC7 2 0 (some 0) []
      = some [{ num := 0, content := "/a/f.ly" }] := by
  rw [(c7_scan_occurrence_one_entry ["\\include \"f.ly\""]
    (fun _ => (["f.ly"], [])) ["/a"] fsC7 1 0 0 [] (by decide)).1]
  decide

/-- C8: a document without a location and with no include roots gives an
empty search path; with `existing=True` the result is always empty,
whatever the lexer and selection produced and whatever is on disk.  (The
embedding is total: absent location, empty path and unresolved references
all flow through ordinary values, no exception channel exists.) -/
theorem c8_empty_search_path_yields_nothing (ia sa : List String)
    (hasSel : Bool) (selText : String) (fs : FS) :
    filenames_at_cursor ia sa hasSel selText "" [] true fs = [] := by
  unfold filenames_at_cursor
  have hb : buildPath "" [] = [] := rfl
  rw [hb]
  exact resolveNames_empty_path fs (dirname "") _

/-- C9: line 185 reads `open_targets(filenames_at_cursor(cursor))` — a
single positional argument for the two required parameters of
`open_targets(mainwindow, targets)`.  Positional binding therefore raises
`TypeError` before the body of `open_targets` runs, for every window,
lexer output, selection, filename, include path and filesystem: no file
is ever opened or focused (no `.ok` window state is produced). -/
theorem c9_open_file_at_cursor_type_error (w : Window) (ia sa : List String)
    (hasSel : Bool) (selText filename : String) (ip : List String) (fs : FS) :
    open_file_at_cursor w ia sa hasSel selText filename ip fs
      = .error .typeError := rfl

/-- C10: `includeTarget`'s inner loop uses `continue`, never `break`, so
(i) with at least one extracted name the result is the list accumulating,
for each name in order, one entry per search-path directory whose
candidate exists and is not a directory, in path order; (ii) that inner
accumulation is the order-preserving filter of the path; (iii) a single
name found under k directories contributes exactly k entries; and (iv)
when no names are extracted the function returns the empty STRING, not a
list. -/
theorem c10_includeTarget_appends_all_matches (ia sa : List String)
    (filename : String) (ip : List String) (fs : FS)
    (hne : pyOr ia sa ≠ []) :
    includeTarget ia sa filename ip fs
      = .found (includeTargetsAll fs (buildPath filename ip) (pyOr ia sa))
    ∧ (∀ (f : String) (path : List String), includeTargetInner fs f path
        = path.filterMap (fun p =>
            if scanOk fs (normpath (pyJoin p f))
            then some (normpath (pyJoin p f)) else none))
    ∧ (∀ (f : String) (path : List String), (includeTargetInner fs f path).length
        = (path.filter (fun p => scanOk fs (normpath (pyJoin p f)))).length)
    ∧ (∀ ia2 sa2 : List String, pyOr ia2 sa2 = [] →
        includeTarget ia2 sa2 filename ip fs = .emptyString) := by
  have hinner : ∀ (f : String) (path : List String), includeTargetInner fs f path
      = path.filterMap (fun p =>
          if scanOk fs (normpath (pyJoin p f))
          then some (normpath (pyJoin p f)) else none) := by
    intro f path
    induction path with
    | nil => rfl
    | cons p ps ih =>
      cases hp : scanOk fs (normpath (pyJoin p f)) with
      | true => simp [includeTargetInner, List.filterMap_cons, hp, ih]
      | false => simp [includeTargetInner, List.filterMap_cons, hp, ih]
  have hempty : (pyOr ia sa).isEmpty = false := by
    cases hp : pyOr ia sa with
    | nil => exact absurd hp hne
    | cons x xs => rfl
  refine ⟨?_, hinner, ?_, ?_⟩
  · simp only [includeTarget, hempty, Bool.false_eq_true, if_false]
  · intro f path
    rw [hinner f path]
    induction path with
    | nil => rfl
    | cons p ps ih =>
      cases hp : scanOk fs (normpath (pyJoin p f)) with
      | true => simp [List.filterMap_cons, List.filter_cons, hp, ih]
      | false => simp [List.filterMap_cons, List.filter_cons, hp, ih]
  · intro ia2 sa2 h2
    simp [includeTarget, h2]

/-- Filesystem for the C10 witness. -/
def fsC10 : FS := { present := ["/a/f.ly", "/b/f.ly"], dirs := [], readable := [] }

/-- C10 witness: one name found under both of the two search directories
contributes two entries, in path order; and with no names the result is
the empty string. -/
theorem c10_witness :
    includeTarget ["f.ly"] [] "/a/main.ly" ["/b"] fsC10
      = .found (includeTargetsAll fsC10 (buildPath "/a/main.ly" ["/b"]) ["f.ly"])
    ∧ includeTargetsAll fsC10 (buildPath "/a/main.ly" ["/b"]) ["f.ly"]
      = ["/a/f.ly", "/b/f.ly"]
    ∧ includeTarget [] [] "/a/main.ly" ["/b"] fsC10 = .emptyString :=
  ⟨(c10_includeTarget_appends_all_matches ["f.ly"] [] "/a/main.ly" ["/b"] fsC10
      (by decide)).1,
   by decide,
   (c10_includeTarget_appends_all_matches ["f.ly"] [] "/a/main.ly" ["/b"] fsC10
      (by decide)).2.2.2 [] [] rfl⟩

end OpenFileAtCursor
